import Mathlib

/-!
Shallow embedding of the Slot-Swapper backend (Express + Mongoose) swap engine:
the event CRUD routes (`backend/src/routes/events.ts`) and the swap routes
(`backend/src/routes/swaps.ts`), over the data model of `models/Event.ts` and
`models/SwapRequest.ts`.  Users, events and swap requests are identified by
`Nat` ids; instants (`Date`) are modelled as `Int`; the Mongo collections are
lists of records.  Each HTTP handler becomes a pure function
`DB → inputs → DB × Resp`.  A handler's sequence of store writes is modelled
with an explicit failure-injection parameter `failAt`: `failAt = some k` makes
the k-th store write of the handler throw, reproducing what Mongoose commits in
that case (writes are sequential and non-transactional in `POST /swap-request`,
but run inside a session/transaction in `POST /swap-response/:requestId`).
-/

namespace SlotSwapper

/-- `EventStatus` from `models/Event.ts`: BUSY | SWAPPABLE | SWAP_PENDING. -/
inductive EventStatus where
  | BUSY
  | SWAPPABLE
  | SWAP_PENDING
  deriving DecidableEq, Repr

/-- `SwapRequestStatus` from `models/SwapRequest.ts`: PENDING | ACCEPTED | REJECTED. -/
inductive SwapRequestStatus where
  | PENDING
  | ACCEPTED
  | REJECTED
  deriving DecidableEq, Repr

/-- An `Event` document (a calendar slot): `models/Event.ts`. -/
structure Event where
  id : Nat
  userId : Nat
  title : String
  startTime : Int
  endTime : Int
  status : EventStatus
  deriving DecidableEq, Repr

/-- A `SwapRequest` document (a swap proposal): `models/SwapRequest.ts`. -/
structure SwapRequest where
  id : Nat
  requesterId : Nat
  requestedId : Nat
  requesterSlotId : Nat
  requestedSlotId : Nat
  status : SwapRequestStatus
  deriving DecidableEq, Repr

/-- The persistent store: the `events` and `swaprequests` collections, plus
fresh-id counters standing for Mongo's ObjectId generation. -/
structure DB where
  events : List Event
  swaps : List SwapRequest
  nextEventId : Nat
  nextSwapId : Nat
  deriving DecidableEq, Repr

/-- The observable HTTP responses of the modelled routes.  Each error
constructor corresponds to one distinct `(status, message)` pair of the
source; the comments quote the exact JSON the route sends. -/
inductive Resp where
  /-- 201 with the created event (`POST /api/events`). -/
  | eventCreated : Event → Resp
  /-- 200 with the updated event (`PUT /api/events/:id`). -/
  | eventOk : Event → Resp
  /-- 204 empty body (`DELETE /api/events/:id`). -/
  | eventDeleted : Resp
  /-- 201 with the created swap request (`POST /api/swap-request`). -/
  | swapCreated : SwapRequest → Resp
  /-- 200 `{ message: 'Swap accepted successfully' }`. -/
  | swapAccepted : Resp
  /-- 200 `{ message: 'Swap rejected' }`. -/
  | swapRejected : Resp
  /-- 400 zod validation error (malformed body). -/
  | badInput : Resp
  /-- 400 `{ error: 'End time must be after start time' }`. -/
  | badTimeRange : Resp
  /-- 404 `{ error: 'Event not found' }`. -/
  | eventNotFound : Resp
  /-- 400 `{ error: 'Cannot change status of event involved in a pending swap' }`. -/
  | pendingStatusGuard : Resp
  /-- 400 `{ error: 'Cannot delete event involved in a pending swap' }`. -/
  | pendingDeleteGuard : Resp
  /-- 404 `{ error: 'Requested slot not found' }`. -/
  | requestedSlotNotFound : Resp
  /-- 404 `{ error: 'Your slot not found' }`. -/
  | yourSlotNotFound : Resp
  /-- 400 `{ error: 'Your slot must be marked as swappable' }`. -/
  | notSwappableMine : Resp
  /-- 400 `{ error: 'Requested slot is not swappable' }`. -/
  | notSwappableTheirs : Resp
  /-- 400 `{ error: 'Cannot swap with your own slot' }`. -/
  | selfSwap : Resp
  /-- 400 `{ error: 'One or both slots are already involved in a pending swap' }`. -/
  | conflictPending : Resp
  /-- 404 `{ error: 'Swap request not found' }`. -/
  | swapNotFound : Resp
  /-- 403 `{ error: 'You are not authorized to respond to this swap request' }`. -/
  | notAuthorized : Resp
  /-- 400 `{ error: 'This swap request has already been processed' }`. -/
  | alreadyProcessed : Resp
  /-- 500 `{ error: 'Internal server error' }`. -/
  | internalError : Resp
  deriving DecidableEq, Repr

/-- `Event.findById(i)`. -/
def findEvent (db : DB) (i : Nat) : Option Event :=
  db.events.find? (fun e => e.id == i)

/-- `Event.findOne({ _id: i, userId: uid })`. -/
def findEventOwned (db : DB) (i uid : Nat) : Option Event :=
  db.events.find? (fun e => e.id == i && e.userId == uid)

/-- `SwapRequest.findById(i)`. -/
def findSwap (db : DB) (i : Nat) : Option SwapRequest :=
  db.swaps.find? (fun s => s.id == i)

/-- The query predicate `{ $or: [{requesterSlotId: sid, status: PENDING},
{requestedSlotId: sid, status: PENDING}] }` applied to one document. -/
def refsSlot (sid : Nat) (s : SwapRequest) : Bool :=
  s.status == .PENDING && (s.requesterSlotId == sid || s.requestedSlotId == sid)

/-- Number of PENDING swap requests that reference slot `sid` as requester or
requested slot. -/
def pendingRefCount (db : DB) (sid : Nat) : Nat :=
  db.swaps.countP (refsSlot sid)

/-- `SwapRequest.findOne({ $or: ... })` for a single slot id, as a Bool. -/
def hasPendingSwapFor (db : DB) (sid : Nat) : Bool :=
  db.swaps.any (refsSlot sid)

/-- `Model.findByIdAndUpdate(i, patch)`: rewrite the documents whose key is
`i` by `f`, leave the rest alone. -/
def updAt {α : Type} (key : α → Nat) (i : Nat) (f : α → α) (l : List α) : List α :=
  l.map (fun x => if key x == i then f x else x)

/-- Body of `POST /api/events` after zod parsing (`createEventSchema`). -/
structure CreateEventInput where
  title : String
  startTime : Int
  endTime : Int
  status : Option EventStatus
  deriving DecidableEq, Repr

/-- Body of `PUT /api/events/:id` after zod parsing (`updateEventSchema`):
every field optional. -/
structure UpdateEventInput where
  title : Option String
  startTime : Option Int
  endTime : Option Int
  status : Option EventStatus
  deriving DecidableEq, Repr

/-- zod `title: z.string().min(1)` fails on a provided empty title. -/
def emptyTitle (o : Option String) : Bool :=
  match o with
  | some t => t.isEmpty
  | none => false

/-- The `data.status && data.status !== existingEvent.status` test of
`PUT /api/events/:id`. -/
def statusChanged (o : Option EventStatus) (e : Event) : Bool :=
  match o with
  | some s => s != e.status
  | none => false

/-- The update route's time validation: it only fires when both `startTime`
and `endTime` are being updated. -/
def badTimes (inp : UpdateEventInput) : Bool :=
  match inp.startTime, inp.endTime with
  | some s, some t => decide (t ≤ s)
  | _, _ => false

/-- How `PUT /api/events/:id` builds `updateData` and what
`findByIdAndUpdate` then stores: each provided field overwrites. -/
def applyUpdate (inp : UpdateEventInput) (e : Event) : Event :=
  { e with
    title := inp.title.getD e.title
    startTime := inp.startTime.getD e.startTime
    endTime := inp.endTime.getD e.endTime
    status := inp.status.getD e.status }

/-- `POST /api/events` (events router `router.post('/')`). -/
def createEvent (db : DB) (uid : Nat) (inp : CreateEventInput) : DB × Resp :=
  if inp.title.isEmpty then (db, .badInput)
  else if inp.endTime ≤ inp.startTime then (db, .badTimeRange)
  else
    let e : Event :=
      ⟨db.nextEventId, uid, inp.title, inp.startTime, inp.endTime, inp.status.getD .BUSY⟩
    ({ db with events := e :: db.events, nextEventId := db.nextEventId + 1 },
     .eventCreated e)

/-- `PUT /api/events/:id` (events router `router.put('/:id')`). -/
def updateEvent (db : DB) (uid i : Nat) (inp : UpdateEventInput) : DB × Resp :=
  if emptyTitle inp.title then (db, .badInput)
  else
    match findEventOwned db i uid with
    | none => (db, .eventNotFound)
    | some existing =>
      if statusChanged inp.status existing && hasPendingSwapFor db i then
        (db, .pendingStatusGuard)
      else if badTimes inp then
        (db, .badTimeRange)
      else
        ({ db with events := updAt Event.id i (applyUpdate inp) db.events },
         .eventOk (applyUpdate inp existing))

/-- `DELETE /api/events/:id` (events router `router.delete('/:id')`). -/
def deleteEvent (db : DB) (uid i : Nat) : DB × Resp :=
  match findEventOwned db i uid with
  | none => (db, .eventNotFound)
  | some _ =>
    if hasPendingSwapFor db i then (db, .pendingDeleteGuard)
    else ({ db with events := db.events.filter (fun e => e.id != i) }, .eventDeleted)

/-- The read-and-check prefix of `POST /api/swap-request`, in source order:
requested slot looked up by id, own slot looked up by `{_id, userId}`,
requested-missing reported first, then own-missing, then the two
swappability checks, then the same-owner check, then the pending-conflict
query over both slots. -/
def swapGuards (db : DB) (uid mySlotId theirSlotId : Nat) :
    Except Resp (Event × Event) :=
  match findEvent db theirSlotId with
  | none => .error .requestedSlotNotFound
  | some theirSlot =>
    match findEventOwned db mySlotId uid with
    | none => .error .yourSlotNotFound
    | some mySlot =>
      if mySlot.status != .SWAPPABLE then .error .notSwappableMine
      else if theirSlot.status != .SWAPPABLE then .error .notSwappableTheirs
      else if mySlot.userId == theirSlot.userId then .error .selfSwap
      else if db.swaps.any (fun s => refsSlot mySlotId s || refsSlot theirSlotId s) then
        .error .conflictPending
      else .ok (mySlot, theirSlot)

/-- `POST /api/swap-request` with failure injection.  The route performs three
separate store writes with no surrounding transaction: (0) `SwapRequest.create`,
(1) `findByIdAndUpdate(mySlotId, {status: SWAP_PENDING})`,
(2) `findByIdAndUpdate(theirSlotId, {status: SWAP_PENDING})`.  A throw at write
`k` leaves the writes before `k` committed and reaches the catch-all 500. -/
def createSwapRequestF (failAt : Option Nat) (db : DB) (uid mySlotId theirSlotId : Nat) :
    DB × Resp :=
  match swapGuards db uid mySlotId theirSlotId with
  | .error r => (db, r)
  | .ok (_mySlot, theirSlot) =>
    if failAt = some 0 then (db, .internalError) else
    let sw : SwapRequest :=
      ⟨db.nextSwapId, uid, theirSlot.userId, mySlotId, theirSlotId, .PENDING⟩
    let db0 := { db with swaps := sw :: db.swaps, nextSwapId := db.nextSwapId + 1 }
    if failAt = some 1 then (db0, .internalError) else
    let db1 := { db0 with
      events := updAt Event.id mySlotId (fun e => { e with status := .SWAP_PENDING }) db0.events }
    if failAt = some 2 then (db1, .internalError) else
    let db2 := { db1 with
      events := updAt Event.id theirSlotId (fun e => { e with status := .SWAP_PENDING }) db1.events }
    (db2, .swapCreated sw)

/-- `POST /api/swap-request` under normal (non-failing) store behaviour. -/
def createSwapRequest (db : DB) (uid mySlotId theirSlotId : Nat) : DB × Resp :=
  createSwapRequestF none db uid mySlotId theirSlotId

/-- The guard prefix of `POST /api/swap-response/:requestId`, in source order:
lookup by id, recipient check (`swapRequest.requestedId !== userId` gives 403),
then pending check (already ACCEPTED/REJECTED gives 400). -/
def respondGuards (db : DB) (uid rid : Nat) : Except Resp SwapRequest :=
  match findSwap db rid with
  | none => .error .swapNotFound
  | some sw =>
    if sw.requestedId != uid then .error .notAuthorized
    else if sw.status != .PENDING then .error .alreadyProcessed
    else .ok sw

/-- `POST /api/swap-response/:requestId` with failure injection.  Both the
accept and the reject branch run their three writes inside a Mongoose
session/transaction: any failure aborts the transaction, so a failing run
leaves the store unchanged and answers 500.  In the accept branch the slot
owners are read from the populated slot documents before any write; a missing
populated slot makes `requesterSlot.userId` throw before the session starts
(500, store unchanged). -/
def respondSwapRequestF (failAt : Option Nat) (db : DB) (uid rid : Nat)
    (accepted : Bool) : DB × Resp :=
  match respondGuards db uid rid with
  | .error r => (db, r)
  | .ok sw =>
    if accepted then
      match findEvent db sw.requesterSlotId, findEvent db sw.requestedSlotId with
      | some requesterSlot, some requestedSlot =>
        if failAt.isSome then (db, .internalError) else
        let swaps1 := updAt SwapRequest.id rid (fun s => { s with status := .ACCEPTED }) db.swaps
        let events1 := updAt Event.id sw.requesterSlotId
          (fun e => { e with userId := requestedSlot.userId, status := .BUSY }) db.events
        let events2 := updAt Event.id sw.requestedSlotId
          (fun e => { e with userId := requesterSlot.userId, status := .BUSY }) events1
        ({ db with swaps := swaps1, events := events2 }, .swapAccepted)
      | _, _ => (db, .internalError)
    else
      if failAt.isSome then (db, .internalError) else
      let swaps1 := updAt SwapRequest.id rid (fun s => { s with status := .REJECTED }) db.swaps
      let events1 := updAt Event.id sw.requesterSlotId
        (fun e => { e with status := .SWAPPABLE }) db.events
      let events2 := updAt Event.id sw.requestedSlotId
        (fun e => { e with status := .SWAPPABLE }) events1
      ({ db with swaps := swaps1, events := events2 }, .swapRejected)

/-- `POST /api/swap-response/:requestId` under normal store behaviour. -/
def respondSwapRequest (db : DB) (uid rid : Nat) (accepted : Bool) : DB × Resp :=
  respondSwapRequestF none db uid rid accepted

/-- The store of a fresh deployment: both collections empty. -/
def DB.init : DB := ⟨[], [], 0, 0⟩

/-- One invocation of any exposed mutating operation, under normal store
behaviour (`failAt = none`): event create / update / delete,
`POST /swap-request`, `POST /swap-response/:requestId`. -/
inductive Step : DB → DB → Prop where
  | cEvent (db : DB) (uid : Nat) (inp : CreateEventInput) :
      Step db (createEvent db uid inp).1
  | uEvent (db : DB) (uid i : Nat) (inp : UpdateEventInput) :
      Step db (updateEvent db uid i inp).1
  | dEvent (db : DB) (uid i : Nat) :
      Step db (deleteEvent db uid i).1
  | cSwap (db : DB) (uid a b : Nat) :
      Step db (createSwapRequest db uid a b).1
  | rSwap (db : DB) (uid rid : Nat) (acc : Bool) :
      Step db (respondSwapRequest db uid rid acc).1

/-- States reachable from a fresh deployment through the exposed operations. -/
def Reachable (db : DB) : Prop :=
  Relation.ReflTransGen Step DB.init db

/-- Like `Step`, but the event create/update bodies never carry the explicit
status `SWAP_PENDING` (which `createEventSchema`/`updateEventSchema` accept). -/
inductive GoodStep : DB → DB → Prop where
  | cEvent (db : DB) (uid : Nat) (inp : CreateEventInput)
      (h : inp.status ≠ some .SWAP_PENDING) :
      GoodStep db (createEvent db uid inp).1
  | uEvent (db : DB) (uid i : Nat) (inp : UpdateEventInput)
      (h : inp.status ≠ some .SWAP_PENDING) :
      GoodStep db (updateEvent db uid i inp).1
  | dEvent (db : DB) (uid i : Nat) :
      GoodStep db (deleteEvent db uid i).1
  | cSwap (db : DB) (uid a b : Nat) :
      GoodStep db (createSwapRequest db uid a b).1
  | rSwap (db : DB) (uid rid : Nat) (acc : Bool) :
      GoodStep db (respondSwapRequest db uid rid acc).1

/-- States reachable when clients never pass status `SWAP_PENDING` directly
to event create/update. -/
def GoodReachable (db : DB) : Prop :=
  Relation.ReflTransGen GoodStep DB.init db

/-- The spec's pairing invariant: a slot is SWAP_PENDING iff exactly one
PENDING swap request references it as requester or requested slot. -/
def Pairing (db : DB) : Prop :=
  ∀ e ∈ db.events, (e.status = .SWAP_PENDING ↔ pendingRefCount db e.id = 1)

/-! Concrete stores used to evaluate the operations at specific inputs. -/

def titleA : String := "Morning focus block"

def titleB : String := "Afternoon review"

/-- Create user 1's slot A as SWAPPABLE. -/
def inpA : CreateEventInput := ⟨titleA, 0, 60, some .SWAPPABLE⟩

/-- Create user 2's slot B as SWAPPABLE. -/
def inpB : CreateEventInput := ⟨titleB, 100, 160, some .SWAPPABLE⟩

/-- Store after user 1 creates slot A (event id 0). -/
def dbOne : DB := (createEvent DB.init 1 inpA).1

/-- Store after user 2 additionally creates slot B (event id 1). -/
def dbTwo : DB := (createEvent dbOne 2 inpB).1

/-- Store after user 1 proposes swapping slot 0 for slot 1 (swap request id 0). -/
def dbPend : DB := (createSwapRequest dbTwo 1 0 1).1

/-- Store after the recipient (user 2) accepts that proposal. -/
def dbAcc : DB := (respondSwapRequest dbPend 2 0 true).1

/-- A store whose only slot is BUSY and owned by user 1. -/
def dbBusy : DB := ⟨[⟨0, 1, titleA, 0, 60, .BUSY⟩], [], 1, 0⟩

/-- A store whose only slot is SWAPPABLE and owned by user 1. -/
def dbSelf : DB := ⟨[⟨0, 1, titleA, 0, 60, .SWAPPABLE⟩], [], 1, 0⟩

section UpdAtLemmas

variable {α : Type} {key : α → Nat} {i : Nat} {f : α → α}

lemma updAt_eq_self {l : List α} (h : ∀ x ∈ l, key x ≠ i) :
    updAt key i f l = l := by
  unfold updAt
  have hcong : ∀ x ∈ l, (if key x == i then f x else x) = id x := by
    intro x hx
    simp [h x hx]
  rw [List.map_congr_left hcong, List.map_id]

lemma updAt_map_key (hf : ∀ x, key (f x) = key x) (l : List α) :
    (updAt key i f l).map key = l.map key := by
  unfold updAt
  rw [List.map_map]
  apply List.map_congr_left
  intro x _
  by_cases h : key x = i
  · simp [Function.comp, h, hf]
  · simp [Function.comp, h]

lemma mem_updAt {l : List α} {y : α} :
    y ∈ updAt key i f l ↔ ∃ x ∈ l, y = if key x == i then f x else x := by
  unfold updAt
  rw [List.mem_map]
  constructor
  · rintro ⟨x, hx, rfl⟩
    exact ⟨x, hx, rfl⟩
  · rintro ⟨x, hx, rfl⟩
    exact ⟨x, hx, rfl⟩

lemma exists_key_updAt (hf : ∀ x, key (f x) = key x) {l : List α} {j : Nat}
    (h : ∃ x ∈ l, key x = j) : ∃ y ∈ updAt key i f l, key y = j := by
  obtain ⟨x, hx, hxj⟩ := h
  refine ⟨if key x == i then f x else x, List.mem_map_of_mem _ hx, ?_⟩
  split
  · rw [hf, hxj]
  · exact hxj

lemma countP_updAt (p : α → Bool) {l : List α} {t : α} (ht : t ∈ l) (hk : key t = i)
    (hnd : (l.map key).Nodup) (hf : ∀ x, key (f x) = key x) :
    (updAt key i f l).countP p + (if p t then 1 else 0)
      = l.countP p + (if p (f t) then 1 else 0) := by
  induction l with
  | nil => cases ht
  | cons a l ih =>
    rw [List.map_cons, List.nodup_cons] at hnd
    by_cases ha : key a = i
    · have hta : t = a := by
        rcases List.mem_cons.mp ht with h | h
        · exact h
        · exact absurd (by rw [ha, ← hk]; exact List.mem_map_of_mem key h) hnd.1
      subst hta
      have hrest : updAt key i f l = l := by
        apply updAt_eq_self
        intro x hx hxi
        exact hnd.1 (by rw [ha, ← hxi]; exact List.mem_map_of_mem key hx)
      unfold updAt at hrest ⊢
      rw [List.map_cons, hrest]
      have hga : (if key t == i then f t else t) = f t := by simp [hk]
      rw [hga, List.countP_cons, List.countP_cons]
      omega
    · have htl : t ∈ l := by
        rcases List.mem_cons.mp ht with h | h
        · exact absurd (h ▸ hk) ha
        · exact h
      have heq := ih htl hnd.2
      unfold updAt at heq ⊢
      rw [List.map_cons]
      have hga : (if key a == i then f a else a) = a := by simp [ha]
      rw [hga, List.countP_cons, List.countP_cons]
      omega

lemma find?_updAt_self (hf : ∀ x, key (f x) = key x) (l : List α) :
    (updAt key i f l).find? (fun x => key x == i)
      = (l.find? (fun x => key x == i)).map f := by
  induction l with
  | nil => rfl
  | cons a l ih =>
    unfold updAt at ih ⊢
    rw [List.map_cons, List.find?_cons, List.find?_cons]
    by_cases ha : key a = i
    · simp [ha, hf]
    · have hb : (key (if key a == i then f a else a) == i) = false := by
        simp [ha, hf]
      have hb2 : (key a == i) = false := by simp [ha]
      rw [hb, hb2]
      exact ih

lemma find?_updAt_ne (hf : ∀ x, key (f x) = key x) {j : Nat} (hij : j ≠ i) (l : List α) :
    (updAt key i f l).find? (fun x => key x == j) = l.find? (fun x => key x == j) := by
  induction l with
  | nil => rfl
  | cons a l ih =>
    unfold updAt at ih ⊢
    rw [List.map_cons, List.find?_cons, List.find?_cons]
    by_cases hq : key a = j
    · have hai : ¬(key a = i) := fun h => hij (by rw [← hq, h])
      have hid : (if key a == i then f a else a) = a := by simp [hai]
      rw [hid]
      have hb : (key a == j) = true := by simp [hq]
      rw [hb]
    · have hb : (key (if key a == i then f a else a) == j) = false := by
        by_cases h : key a = i <;> simp [h, hf, hq, Ne.symm hij]
      have hb2 : (key a == j) = false := by simp [hq]
      rw [hb, hb2]
      exact ih

end UpdAtLemmas

lemma refsSlot_iff {sid : Nat} {s : SwapRequest} :
    refsSlot sid s = true ↔
      s.status = .PENDING ∧ (s.requesterSlotId = sid ∨ s.requestedSlotId = sid) := by
  unfold refsSlot
  simp

lemma hasPending_false_iff {db : DB} {sid : Nat} :
    hasPendingSwapFor db sid = false ↔ pendingRefCount db sid = 0 := by
  unfold hasPendingSwapFor pendingRefCount
  rw [List.any_eq_false, List.countP_eq_zero]

lemma hasPending_true_iff {db : DB} {sid : Nat} :
    hasPendingSwapFor db sid = true ↔ 0 < pendingRefCount db sid := by
  unfold hasPendingSwapFor pendingRefCount
  rw [List.any_eq_true, List.countP_pos_iff]

section OpLemmas

variable {db : DB} {uid i : Nat}

lemma createEvent_badInput {inp : CreateEventInput} (h : inp.title.isEmpty = true) :
    createEvent db uid inp = (db, .badInput) := by
  unfold createEvent
  simp [h]

lemma createEvent_badTime {inp : CreateEventInput} (h1 : inp.title.isEmpty = false)
    (h2 : inp.endTime ≤ inp.startTime) :
    createEvent db uid inp = (db, .badTimeRange) := by
  unfold createEvent
  simp [h1, h2]

lemma createEvent_success {inp : CreateEventInput} (h1 : inp.title.isEmpty = false)
    (h2 : ¬ inp.endTime ≤ inp.startTime) :
    createEvent db uid inp =
      ({ db with
          events := ⟨db.nextEventId, uid, inp.title, inp.startTime, inp.endTime,
            inp.status.getD .BUSY⟩ :: db.events,
          nextEventId := db.nextEventId + 1 },
        .eventCreated ⟨db.nextEventId, uid, inp.title, inp.startTime, inp.endTime,
          inp.status.getD .BUSY⟩) := by
  unfold createEvent
  simp [h1, h2]

lemma updateEvent_badInput {inp : UpdateEventInput} (h : emptyTitle inp.title = true) :
    updateEvent db uid i inp = (db, .badInput) := by
  unfold updateEvent
  simp [h]

lemma updateEvent_notFound {inp : UpdateEventInput} (h : emptyTitle inp.title = false)
    (h2 : findEventOwned db i uid = none) :
    updateEvent db uid i inp = (db, .eventNotFound) := by
  unfold updateEvent
  simp [h, h2]

lemma updateEvent_pendingGuard {inp : UpdateEventInput} {ex : Event}
    (h : emptyTitle inp.title = false) (h2 : findEventOwned db i uid = some ex)
    (h3 : (statusChanged inp.status ex && hasPendingSwapFor db i) = true) :
    updateEvent db uid i inp = (db, .pendingStatusGuard) := by
  unfold updateEvent
  simp [h, h2, h3]

lemma updateEvent_badTime {inp : UpdateEventInput} {ex : Event}
    (h : emptyTitle inp.title = false) (h2 : findEventOwned db i uid = some ex)
    (h3 : (statusChanged inp.status ex && hasPendingSwapFor db i) = false)
    (h4 : badTimes inp = true) :
    updateEvent db uid i inp = (db, .badTimeRange) := by
  unfold updateEvent
  simp [h, h2, h3, h4]

lemma updateEvent_success {inp : UpdateEventInput} {ex : Event}
    (h : emptyTitle inp.title = false) (h2 : findEventOwned db i uid = some ex)
    (h3 : (statusChanged inp.status ex && hasPendingSwapFor db i) = false)
    (h4 : badTimes inp = false) :
    updateEvent db uid i inp =
      ({ db with events := updAt Event.id i (applyUpdate inp) db.events },
        .eventOk (applyUpdate inp ex)) := by
  unfold updateEvent
  simp [h, h2, h3, h4]

lemma deleteEvent_notFound (h : findEventOwned db i uid = none) :
    deleteEvent db uid i = (db, .eventNotFound) := by
  unfold deleteEvent
  simp [h]

lemma deleteEvent_pendingGuard {ex : Event} (h : findEventOwned db i uid = some ex)
    (h2 : hasPendingSwapFor db i = true) :
    deleteEvent db uid i = (db, .pendingDeleteGuard) := by
  unfold deleteEvent
  simp [h, h2]

lemma deleteEvent_success {ex : Event} (h : findEventOwned db i uid = some ex)
    (h2 : hasPendingSwapFor db i = false) :
    deleteEvent db uid i =
      ({ db with events := db.events.filter (fun e => e.id != i) }, .eventDeleted) := by
  unfold deleteEvent
  simp [h, h2]

variable {a b : Nat}

lemma swapGuards_requestedMissing (h : findEvent db b = none) :
    swapGuards db uid a b = .error .requestedSlotNotFound := by
  unfold swapGuards
  simp [h]

lemma swapGuards_mineMissing {their : Event} (h : findEvent db b = some their)
    (h2 : findEventOwned db a uid = none) :
    swapGuards db uid a b = .error .yourSlotNotFound := by
  unfold swapGuards
  simp [h, h2]

lemma swapGuards_mineNotSwappable {their my : Event} (h : findEvent db b = some their)
    (h2 : findEventOwned db a uid = some my) (h3 : my.status ≠ .SWAPPABLE) :
    swapGuards db uid a b = .error .notSwappableMine := by
  unfold swapGuards
  simp [h, h2, h3]

lemma swapGuards_theirsNotSwappable {their my : Event} (h : findEvent db b = some their)
    (h2 : findEventOwned db a uid = some my) (h3 : my.status = .SWAPPABLE)
    (h4 : their.status ≠ .SWAPPABLE) :
    swapGuards db uid a b = .error .notSwappableTheirs := by
  unfold swapGuards
  simp [h, h2, h3, h4]

lemma swapGuards_selfSwap {their my : Event} (h : findEvent db b = some their)
    (h2 : findEventOwned db a uid = some my) (h3 : my.status = .SWAPPABLE)
    (h4 : their.status = .SWAPPABLE) (h5 : my.userId = their.userId) :
    swapGuards db uid a b = .error .selfSwap := by
  unfold swapGuards
  simp [h, h2, h3, h4, h5]

lemma swapGuards_conflict {their my : Event} (h : findEvent db b = some their)
    (h2 : findEventOwned db a uid = some my) (h3 : my.status = .SWAPPABLE)
    (h4 : their.status = .SWAPPABLE) (h5 : my.userId ≠ their.userId)
    (h6 : db.swaps.any (fun s => refsSlot a s || refsSlot b s) = true) :
    swapGuards db uid a b = .error .conflictPending := by
  unfold swapGuards
  simp [h, h2, h3, h4, h5, h6]

lemma swapGuards_ok {their my : Event} (h : findEvent db b = some their)
    (h2 : findEventOwned db a uid = some my) (h3 : my.status = .SWAPPABLE)
    (h4 : their.status = .SWAPPABLE) (h5 : my.userId ≠ their.userId)
    (h6 : db.swaps.any (fun s => refsSlot a s || refsSlot b s) = false) :
    swapGuards db uid a b = .ok (my, their) := by
  unfold swapGuards
  simp [h, h2, h3, h4, h5, h6]

lemma createSwapRequestF_err {fa : Option Nat} {r : Resp}
    (h : swapGuards db uid a b = .error r) :
    createSwapRequestF fa db uid a b = (db, r) := by
  unfold createSwapRequestF
  rw [h]

lemma createSwapRequestF_ok {my their : Event}
    (h : swapGuards db uid a b = .ok (my, their)) :
    createSwapRequestF none db uid a b =
      ({ db with
          events := updAt Event.id b (fun e => { e with status := .SWAP_PENDING })
            (updAt Event.id a (fun e => { e with status := .SWAP_PENDING }) db.events),
          swaps := ⟨db.nextSwapId, uid, their.userId, a, b, .PENDING⟩ :: db.swaps,
          nextSwapId := db.nextSwapId + 1 },
        .swapCreated ⟨db.nextSwapId, uid, their.userId, a, b, .PENDING⟩) := by
  unfold createSwapRequestF
  rw [h]
  rfl

lemma createSwapRequestF_fail0 {my their : Event}
    (h : swapGuards db uid a b = .ok (my, their)) :
    createSwapRequestF (some 0) db uid a b = (db, .internalError) := by
  unfold createSwapRequestF
  rw [h]
  rfl

lemma createSwapRequestF_fail1 {my their : Event}
    (h : swapGuards db uid a b = .ok (my, their)) :
    createSwapRequestF (some 1) db uid a b =
      ({ db with
          swaps := ⟨db.nextSwapId, uid, their.userId, a, b, .PENDING⟩ :: db.swaps,
          nextSwapId := db.nextSwapId + 1 },
        .internalError) := by
  unfold createSwapRequestF
  rw [h]
  rfl

lemma createSwapRequestF_fail2 {my their : Event}
    (h : swapGuards db uid a b = .ok (my, their)) :
    createSwapRequestF (some 2) db uid a b =
      ({ db with
          events := updAt Event.id a (fun e => { e with status := .SWAP_PENDING }) db.events,
          swaps := ⟨db.nextSwapId, uid, their.userId, a, b, .PENDING⟩ :: db.swaps,
          nextSwapId := db.nextSwapId + 1 },
        .internalError) := by
  unfold createSwapRequestF
  rw [h]
  rfl

variable {rid : Nat} {acc : Bool}

lemma respondGuards_missing (h : findSwap db rid = none) :
    respondGuards db uid rid = .error .swapNotFound := by
  unfold respondGuards
  simp [h]

lemma respondGuards_notRecipient {sw : SwapRequest} (h : findSwap db rid = some sw)
    (h2 : sw.requestedId ≠ uid) :
    respondGuards db uid rid = .error .notAuthorized := by
  unfold respondGuards
  simp [h, h2]

lemma respondGuards_notPending {sw : SwapRequest} (h : findSwap db rid = some sw)
    (h2 : sw.requestedId = uid) (h3 : sw.status ≠ .PENDING) :
    respondGuards db uid rid = .error .alreadyProcessed := by
  unfold respondGuards
  simp [h, h2, h3]

lemma respondGuards_ok {sw : SwapRequest} (h : findSwap db rid = some sw)
    (h2 : sw.requestedId = uid) (h3 : sw.status = .PENDING) :
    respondGuards db uid rid = .ok sw := by
  unfold respondGuards
  simp [h, h2, h3]

lemma respondSwapRequestF_err {fa : Option Nat} {r : Resp}
    (h : respondGuards db uid rid = .error r) :
    respondSwapRequestF fa db uid rid acc = (db, r) := by
  unfold respondSwapRequestF
  rw [h]

lemma respondSwapRequestF_accept {sw : SwapRequest} {rq rd : Event}
    (h : respondGuards db uid rid = .ok sw)
    (h2 : findEvent db sw.requesterSlotId = some rq)
    (h3 : findEvent db sw.requestedSlotId = some rd) :
    respondSwapRequestF none db uid rid true =
      ({ db with
          swaps := updAt SwapRequest.id rid (fun s => { s with status := .ACCEPTED }) db.swaps,
          events := updAt Event.id sw.requestedSlotId
            (fun e => { e with userId := rq.userId, status := .BUSY })
            (updAt Event.id sw.requesterSlotId
              (fun e => { e with userId := rd.userId, status := .BUSY }) db.events) },
        .swapAccepted) := by
  unfold respondSwapRequestF
  rw [h]
  simp [h2, h3]

lemma respondSwapRequestF_reject {sw : SwapRequest}
    (h : respondGuards db uid rid = .ok sw) :
    respondSwapRequestF none db uid rid false =
      ({ db with
          swaps := updAt SwapRequest.id rid (fun s => { s with status := .REJECTED }) db.swaps,
          events := updAt Event.id sw.requestedSlotId
            (fun e => { e with status := .SWAPPABLE })
            (updAt Event.id sw.requesterSlotId
              (fun e => { e with status := .SWAPPABLE }) db.events) },
        .swapRejected) := by
  unfold respondSwapRequestF
  rw [h]
  rfl

lemma respondSwapRequestF_acceptMissing {sw : SwapRequest} {fa : Option Nat}
    (h : respondGuards db uid rid = .ok sw)
    (h2 : findEvent db sw.requesterSlotId = none ∨ findEvent db sw.requestedSlotId = none) :
    respondSwapRequestF fa db uid rid true = (db, .internalError) := by
  unfold respondSwapRequestF
  rw [h]
  rcases hq : findEvent db sw.requesterSlotId with _ | rq
  · simp [hq]
  · rcases hd : findEvent db sw.requestedSlotId with _ | rd
    · simp [hq, hd]
    · rw [hq, hd] at h2
      rcases h2 with h2 | h2 <;> exact absurd h2 (by simp)

lemma respondSwapRequestF_txFail {sw : SwapRequest} {k : Nat}
    (h : respondGuards db uid rid = .ok sw)
    (h2 : acc = true → (findEvent db sw.requesterSlotId).isSome ∧
      (findEvent db sw.requestedSlotId).isSome) :
    respondSwapRequestF (some k) db uid rid acc = (db, .internalError) := by
  unfold respondSwapRequestF
  rw [h]
  cases acc with
  | false => rfl
  | true =>
    obtain ⟨hqs, hds⟩ := h2 rfl
    rcases hfq : findEvent db sw.requesterSlotId with _ | rq
    · rw [hfq] at hqs
      simp at hqs
    · rcases hfd : findEvent db sw.requestedSlotId with _ | rd
      · rw [hfd] at hds
        simp at hds
      · simp [hfq, hfd]

end OpLemmas

lemma findEvent_some {db : DB} {i : Nat} {e : Event} (h : findEvent db i = some e) :
    e ∈ db.events ∧ e.id = i := by
  unfold findEvent at h
  have hm := List.mem_of_find?_eq_some h
  have hp := List.find?_some h
  simp at hp
  exact ⟨hm, hp⟩

lemma findEventOwned_some {db : DB} {i uid : Nat} {e : Event}
    (h : findEventOwned db i uid = some e) :
    e ∈ db.events ∧ e.id = i ∧ e.userId = uid := by
  unfold findEventOwned at h
  have hm := List.mem_of_find?_eq_some h
  have hp := List.find?_some h
  simp at hp
  exact ⟨hm, hp.1, hp.2⟩

lemma findSwap_some {db : DB} {i : Nat} {s : SwapRequest} (h : findSwap db i = some s) :
    s ∈ db.swaps ∧ s.id = i := by
  unfold findSwap at h
  have hm := List.mem_of_find?_eq_some h
  have hp := List.find?_some h
  simp at hp
  exact ⟨hm, hp⟩

/-- The inductive invariant maintained by the operations of the good step
relation: unique ids, freshness of the id counters, at most one PENDING swap
request per slot, the pairing invariant, and well-formedness of every PENDING
swap request (two distinct referenced slots, both present in the store). -/
structure Inv (db : DB) : Prop where
  eventsNodup : (db.events.map Event.id).Nodup
  swapsNodup : (db.swaps.map SwapRequest.id).Nodup
  eventsBelow : ∀ e ∈ db.events, e.id < db.nextEventId
  swapsBelow : ∀ s ∈ db.swaps, s.id < db.nextSwapId
  atMostOne : ∀ sid, pendingRefCount db sid ≤ 1
  pairing : Pairing db
  pendingWf : ∀ s ∈ db.swaps, s.status = .PENDING →
    s.requesterSlotId ≠ s.requestedSlotId ∧
    (∃ e ∈ db.events, e.id = s.requesterSlotId) ∧
    (∃ e ∈ db.events, e.id = s.requestedSlotId)

lemma inv_init : Inv DB.init := by
  constructor <;> simp [DB.init, Pairing, pendingRefCount]

/-- In an invariant state, no PENDING swap request can reference a slot id
that is at or above the event id counter. -/
lemma pendingRefCount_fresh {db : DB} (hI : Inv db) {sid : Nat}
    (h : db.nextEventId ≤ sid) : pendingRefCount db sid = 0 := by
  unfold pendingRefCount
  rw [List.countP_eq_zero]
  intro s hs hrefs
  obtain ⟨hpend, hor⟩ := refsSlot_iff.mp hrefs
  obtain ⟨-, hex1, hex2⟩ := hI.pendingWf s hs hpend
  rcases hor with hor | hor
  · obtain ⟨e, he, hid⟩ := hex1
    have := hI.eventsBelow e he
    omega
  · obtain ⟨e, he, hid⟩ := hex2
    have := hI.eventsBelow e he
    omega

lemma inv_createEvent {db : DB} {uid : Nat} {inp : CreateEventInput} (hI : Inv db)
    (hs : inp.status ≠ some .SWAP_PENDING) :
    Inv (createEvent db uid inp).1 := by
  by_cases h1 : inp.title.isEmpty
  · rw [createEvent_badInput h1]
    exact hI
  have h1' : inp.title.isEmpty = false := by simpa using h1
  by_cases h2 : inp.endTime ≤ inp.startTime
  · rw [createEvent_badTime h1' h2]
    exact hI
  rw [createEvent_success h1' h2]
  have hnewStatus : inp.status.getD .BUSY ≠ EventStatus.SWAP_PENDING := by
    rcases hst : inp.status with _ | s
    · simp
    · simpa [hst] using hs
  constructor
  · rw [List.map_cons, List.nodup_cons]
    refine ⟨?_, hI.eventsNodup⟩
    intro hmem
    rw [List.mem_map] at hmem
    obtain ⟨e, he, hid⟩ := hmem
    have hlt := hI.eventsBelow e he
    have hid' : e.id = db.nextEventId := hid
    omega
  · exact hI.swapsNodup
  · intro e he
    rcases List.mem_cons.mp he with rfl | he
    · show db.nextEventId < db.nextEventId + 1
      omega
    · have hlt := hI.eventsBelow e he
      show e.id < db.nextEventId + 1
      omega
  · exact hI.swapsBelow
  · exact hI.atMostOne
  · intro e he
    rcases List.mem_cons.mp he with rfl | he
    · have hzero : pendingRefCount db db.nextEventId = 0 :=
        pendingRefCount_fresh hI (Nat.le_refl _)
      constructor
      · intro hcontra
        exact absurd hcontra hnewStatus
      · intro hcount
        have : pendingRefCount db db.nextEventId = 1 := hcount
        omega
    · exact hI.pairing e he
  · intro s hsMem hsPend
    obtain ⟨hne, ⟨e1, he1, hid1⟩, ⟨e2, he2, hid2⟩⟩ := hI.pendingWf s hsMem hsPend
    exact ⟨hne, ⟨e1, List.mem_cons_of_mem _ he1, hid1⟩,
      ⟨e2, List.mem_cons_of_mem _ he2, hid2⟩⟩

lemma inv_updateEvent {db : DB} {uid i : Nat} {inp : UpdateEventInput} (hI : Inv db)
    (hs : inp.status ≠ some .SWAP_PENDING) :
    Inv (updateEvent db uid i inp).1 := by
  by_cases h1 : emptyTitle inp.title
  · rw [updateEvent_badInput h1]
    exact hI
  have h1' : emptyTitle inp.title = false := by simpa using h1
  rcases hfind : findEventOwned db i uid with _ | ex
  · rw [updateEvent_notFound h1' hfind]
    exact hI
  by_cases h3 : (statusChanged inp.status ex && hasPendingSwapFor db i) = true
  · rw [updateEvent_pendingGuard h1' hfind h3]
    exact hI
  have h3' : (statusChanged inp.status ex && hasPendingSwapFor db i) = false := by
    simpa using h3
  by_cases h4 : badTimes inp
  · rw [updateEvent_badTime h1' hfind h3' h4]
    exact hI
  have h4' : badTimes inp = false := by simpa using h4
  rw [updateEvent_success h1' hfind h3' h4']
  obtain ⟨hexMem, hexId, hexUid⟩ := findEventOwned_some hfind
  have hidpres : ∀ e : Event, (applyUpdate inp e).id = e.id := fun _ => rfl
  constructor
  · rw [updAt_map_key hidpres]
    exact hI.eventsNodup
  · exact hI.swapsNodup
  · intro e' he'
    rw [mem_updAt] at he'
    obtain ⟨e, he, rfl⟩ := he'
    have hlt := hI.eventsBelow e he
    split <;> exact hlt
  · exact hI.swapsBelow
  · exact hI.atMostOne
  · intro e' he'
    rw [mem_updAt] at he'
    obtain ⟨e, he, rfl⟩ := he'
    have hpair := hI.pairing e he
    by_cases hkey : e.id = i
    · rw [if_pos (by simp [hkey])]
      rcases hst : inp.status with _ | s
      · have hstEq : (applyUpdate inp e).status = e.status := by
          simp [applyUpdate, hst]
        have hidEq : (applyUpdate inp e).id = e.id := rfl
        rw [hstEq, hidEq]
        exact hpair
      · have hee : e = ex :=
          List.inj_on_of_nodup_map hI.eventsNodup he hexMem (by rw [hexId, hkey])
        have hstEq : (applyUpdate inp e).status = s := by simp [applyUpdate, hst]
        have hidEq : (applyUpdate inp e).id = e.id := rfl
        rw [hstEq, hidEq]
        rcases Bool.and_eq_false_iff.mp h3' with hch | hpd
        · rw [hst] at hch
          unfold statusChanged at hch
          have hsEq : s = ex.status := bne_eq_false_iff_eq.mp hch
          rw [hsEq, ← hee]
          exact hpair
        · have hzero : pendingRefCount db i = 0 := hasPending_false_iff.mp hpd
          have hsNe : s ≠ EventStatus.SWAP_PENDING := by
            intro hcontra
            rw [hcontra] at hst
            exact hs hst
          constructor
          · intro hcontra
            exact absurd hcontra hsNe
          · intro hcount
            rw [hkey] at hcount
            have : pendingRefCount db i = 1 := hcount
            omega
    · rw [if_neg (by simp [hkey])]
      exact hpair
  · intro s hsMem hsPend
    obtain ⟨hne, hex1, hex2⟩ := hI.pendingWf s hsMem hsPend
    refine ⟨hne, ?_, ?_⟩
    · exact @exists_key_updAt Event Event.id i (applyUpdate inp) (fun _ => rfl)
        db.events s.requesterSlotId hex1
    · exact @exists_key_updAt Event Event.id i (applyUpdate inp) (fun _ => rfl)
        db.events s.requestedSlotId hex2

/-- A swap request that references slot `sid` while PENDING witnesses a
positive reference count. -/
lemma pendingRefCount_pos {db : DB} {sid : Nat} {s : SwapRequest}
    (hmem : s ∈ db.swaps) (hrefs : refsSlot sid s = true) :
    0 < pendingRefCount db sid := by
  unfold pendingRefCount
  rw [List.countP_pos_iff]
  exact ⟨s, hmem, hrefs⟩

lemma inv_deleteEvent {db : DB} {uid i : Nat} (hI : Inv db) :
    Inv (deleteEvent db uid i).1 := by
  rcases hfind : findEventOwned db i uid with _ | ex
  · rw [deleteEvent_notFound hfind]
    exact hI
  by_cases h2 : hasPendingSwapFor db i
  · rw [deleteEvent_pendingGuard hfind h2]
    exact hI
  have h2' : hasPendingSwapFor db i = false := by simpa using h2
  have hzero : pendingRefCount db i = 0 := hasPending_false_iff.mp h2'
  rw [deleteEvent_success hfind h2']
  constructor
  · exact ((List.filter_sublist _).map Event.id).nodup hI.eventsNodup
  · exact hI.swapsNodup
  · intro e he
    exact hI.eventsBelow e (List.mem_filter.mp he).1
  · exact hI.swapsBelow
  · exact hI.atMostOne
  · intro e he
    exact hI.pairing e (List.mem_filter.mp he).1
  · intro s hsMem hsPend
    obtain ⟨hne, ⟨e1, he1, hid1⟩, ⟨e2, he2, hid2⟩⟩ := hI.pendingWf s hsMem hsPend
    refine ⟨hne, ⟨e1, ?_, hid1⟩, ⟨e2, ?_, hid2⟩⟩
    · rw [List.mem_filter]
      refine ⟨he1, ?_⟩
      rw [bne_iff_ne]
      intro hcontra
      have hrefs : refsSlot i s = true :=
        refsSlot_iff.mpr ⟨hsPend, Or.inl (by rw [← hid1, hcontra])⟩
      have hpos : 0 < pendingRefCount db i := @pendingRefCount_pos db i s hsMem hrefs
      omega
    · rw [List.mem_filter]
      refine ⟨he2, ?_⟩
      rw [bne_iff_ne]
      intro hcontra
      have hrefs : refsSlot i s = true :=
        refsSlot_iff.mpr ⟨hsPend, Or.inr (by rw [← hid2, hcontra])⟩
      have hpos : 0 < pendingRefCount db i := @pendingRefCount_pos db i s hsMem hrefs
      omega

/-- Unpacking all the facts established by a successful guard pass of
`POST /swap-request`. -/
lemma swapGuards_ok_inv {db : DB} {uid a b : Nat} {my their : Event}
    (h : swapGuards db uid a b = .ok (my, their)) :
    findEvent db b = some their ∧ findEventOwned db a uid = some my ∧
    my.status = .SWAPPABLE ∧ their.status = .SWAPPABLE ∧
    my.userId ≠ their.userId ∧
    db.swaps.any (fun s => refsSlot a s || refsSlot b s) = false := by
  rcases hb : findEvent db b with _ | th
  · rw [swapGuards_requestedMissing hb] at h
    simp at h
  rcases ha : findEventOwned db a uid with _ | m
  · rw [swapGuards_mineMissing hb ha] at h
    simp at h
  have h3 : m.status = EventStatus.SWAPPABLE := by
    by_contra h3
    rw [swapGuards_mineNotSwappable hb ha h3] at h
    simp at h
  have h4 : th.status = EventStatus.SWAPPABLE := by
    by_contra h4
    rw [swapGuards_theirsNotSwappable hb ha h3 h4] at h
    simp at h
  have h5 : m.userId ≠ th.userId := by
    intro h5
    rw [swapGuards_selfSwap hb ha h3 h4 h5] at h
    simp at h
  have h6 : db.swaps.any (fun s => refsSlot a s || refsSlot b s) = false := by
    rcases hany : db.swaps.any (fun s => refsSlot a s || refsSlot b s) with _ | _
    · rfl
    · rw [swapGuards_conflict hb ha h3 h4 h5 hany] at h
      simp at h
  rw [swapGuards_ok hb ha h3 h4 h5 h6] at h
  have hmth : m = my ∧ th = their := by simpa using h
  obtain ⟨rfl, rfl⟩ := hmth
  exact ⟨rfl, rfl, h3, h4, h5, h6⟩

/-- Case analysis for membership in an event list updated at two distinct
ids, as both swap routes do. -/
lemma double_updAt_cases {l : List Event} {a b : Nat} (hab : a ≠ b)
    (f g : Event → Event) (hfid : ∀ e, (f e).id = e.id)
    {e' : Event}
    (he' : e' ∈ updAt Event.id b g (updAt Event.id a f l)) :
    ∃ e ∈ l, (e.id = a ∧ e' = f e) ∨ (e.id = b ∧ e' = g e) ∨
      (e.id ≠ a ∧ e.id ≠ b ∧ e' = e) := by
  rw [mem_updAt] at he'
  obtain ⟨x, hx, rfl⟩ := he'
  rw [mem_updAt] at hx
  obtain ⟨e, he, rfl⟩ := hx
  refine ⟨e, he, ?_⟩
  by_cases hea : e.id = a
  · left
    refine ⟨hea, ?_⟩
    have h1 : (if e.id == a then f e else e) = f e := by simp [hea]
    rw [h1, if_neg (by simp [hfid, hea, hab])]
  · by_cases heb : e.id = b
    · right
      left
      refine ⟨heb, ?_⟩
      have h1 : (if e.id == a then f e else e) = e := by simp [hea]
      rw [h1, if_pos (by simp [heb])]
    · right
      right
      refine ⟨hea, heb, ?_⟩
      have h1 : (if e.id == a then f e else e) = e := by simp [hea]
      rw [h1, if_neg (by simp [heb])]

lemma inv_createSwapRequest {db : DB} {uid a b : Nat} (hI : Inv db) :
    Inv (createSwapRequest db uid a b).1 := by
  unfold createSwapRequest
  rcases hg : swapGuards db uid a b with r | ⟨my, their⟩
  · rw [createSwapRequestF_err hg]
    exact hI
  rw [createSwapRequestF_ok hg]
  obtain ⟨hb, ha, hmySt, htheirSt, hne, hany⟩ := swapGuards_ok_inv hg
  obtain ⟨htheirMem, htheirId⟩ := findEvent_some hb
  obtain ⟨hmyMem, hmyId, hmyUid⟩ := findEventOwned_some ha
  have hab : a ≠ b := by
    intro hcontra
    have heq : my = their :=
      List.inj_on_of_nodup_map hI.eventsNodup hmyMem htheirMem
        (by rw [hmyId, htheirId, hcontra])
    exact hne (by rw [heq])
  have hanyAll := List.any_eq_false.mp hany
  have hzeroA : List.countP (refsSlot a) db.swaps = 0 := by
    rw [List.countP_eq_zero]
    intro s hs hrefs
    exact hanyAll s hs (by simp [hrefs])
  have hzeroB : List.countP (refsSlot b) db.swaps = 0 := by
    rw [List.countP_eq_zero]
    intro s hs hrefs
    exact hanyAll s hs (by simp [hrefs])
  have hrefsNewA : refsSlot a ⟨db.nextSwapId, uid, their.userId, a, b, .PENDING⟩ = true := by
    simp [refsSlot]
  have hrefsNewB : refsSlot b ⟨db.nextSwapId, uid, their.userId, a, b, .PENDING⟩ = true := by
    simp [refsSlot]
  have hrefsNewO : ∀ sid, sid ≠ a → sid ≠ b →
      refsSlot sid ⟨db.nextSwapId, uid, their.userId, a, b, .PENDING⟩ = false := by
    intro sid hna hnb
    unfold refsSlot
    simp only [Bool.and_eq_false_iff]
    right
    simp [Ne.symm hna, Ne.symm hnb]
  constructor
  · have hkeys : ∀ (j : Nat) (l : List Event),
        (updAt Event.id j (fun e => { e with status := EventStatus.SWAP_PENDING }) l).map
          Event.id = l.map Event.id :=
      fun j l => @updAt_map_key Event Event.id j
        (fun e => { e with status := EventStatus.SWAP_PENDING }) (fun _ => rfl) l
    rw [hkeys, hkeys]
    exact hI.eventsNodup
  · rw [List.map_cons, List.nodup_cons]
    refine ⟨?_, hI.swapsNodup⟩
    intro hmem
    rw [List.mem_map] at hmem
    obtain ⟨s, hs, hid⟩ := hmem
    have hlt := hI.swapsBelow s hs
    have hid' : s.id = db.nextSwapId := hid
    omega
  · intro e' he'
    rw [mem_updAt] at he'
    obtain ⟨x, hx, rfl⟩ := he'
    rw [mem_updAt] at hx
    obtain ⟨e, he, rfl⟩ := hx
    have hlt := hI.eventsBelow e he
    split <;> split <;> exact hlt
  · intro s hs
    rcases List.mem_cons.mp hs with rfl | hs
    · show db.nextSwapId < db.nextSwapId + 1
      omega
    · have hlt := hI.swapsBelow s hs
      show s.id < db.nextSwapId + 1
      omega
  · intro sid
    show List.countP (refsSlot sid)
      (⟨db.nextSwapId, uid, their.userId, a, b, .PENDING⟩ :: db.swaps) ≤ 1
    rw [List.countP_cons]
    by_cases hsa : sid = a
    · rw [hsa, hrefsNewA]
      simp [hzeroA]
    · by_cases hsb : sid = b
      · rw [hsb, hrefsNewB]
        simp [hzeroB]
      · rw [hrefsNewO sid hsa hsb]
        have hle : List.countP (refsSlot sid) db.swaps ≤ 1 := hI.atMostOne sid
        simpa using hle
  · intro e' he'
    obtain ⟨e, he, hcase⟩ := double_updAt_cases hab
      (fun e => { e with status := EventStatus.SWAP_PENDING })
      (fun e => { e with status := EventStatus.SWAP_PENDING })
      (fun _ => rfl) he'
    rcases hcase with ⟨hea, rfl⟩ | ⟨heb, rfl⟩ | ⟨hna, hnb, rfl⟩
    · constructor
      · intro _
        have hgid : ({ e with status := EventStatus.SWAP_PENDING } : Event).id = a := hea
        rw [hgid]
        show List.countP (refsSlot a)
          (⟨db.nextSwapId, uid, their.userId, a, b, .PENDING⟩ :: db.swaps) = 1
        rw [List.countP_cons, hrefsNewA, hzeroA]
        simp
      · intro _
        rfl
    · constructor
      · intro _
        have hgid : ({ e with status := EventStatus.SWAP_PENDING } : Event).id = b := heb
        rw [hgid]
        show List.countP (refsSlot b)
          (⟨db.nextSwapId, uid, their.userId, a, b, .PENDING⟩ :: db.swaps) = 1
        rw [List.countP_cons, hrefsNewB, hzeroB]
        simp
      · intro _
        rfl
    · have hpair := hI.pairing e' he
      have hz := hrefsNewO e'.id hna hnb
      show e'.status = EventStatus.SWAP_PENDING ↔ List.countP (refsSlot e'.id)
        (⟨db.nextSwapId, uid, their.userId, a, b, .PENDING⟩ :: db.swaps) = 1
      rw [List.countP_cons, hz]
      simpa using hpair
  · intro s hs hsPend
    rcases List.mem_cons.mp hs with rfl | hs
    · refine ⟨hab, ?_, ?_⟩
      · have hinner : ∃ y ∈ updAt Event.id a
            (fun e => { e with status := EventStatus.SWAP_PENDING }) db.events, y.id = a :=
          @exists_key_updAt Event Event.id a
            (fun e => { e with status := EventStatus.SWAP_PENDING }) (fun _ => rfl)
            db.events a ⟨my, hmyMem, hmyId⟩
        exact @exists_key_updAt Event Event.id b
          (fun e => { e with status := EventStatus.SWAP_PENDING }) (fun _ => rfl)
          _ a hinner
      · have hinner : ∃ y ∈ updAt Event.id a
            (fun e => { e with status := EventStatus.SWAP_PENDING }) db.events, y.id = b :=
          @exists_key_updAt Event Event.id a
            (fun e => { e with status := EventStatus.SWAP_PENDING }) (fun _ => rfl)
            db.events b ⟨their, htheirMem, htheirId⟩
        exact @exists_key_updAt Event Event.id b
          (fun e => { e with status := EventStatus.SWAP_PENDING }) (fun _ => rfl)
          _ b hinner
    · obtain ⟨hne2, hex1, hex2⟩ := hI.pendingWf s hs hsPend
      refine ⟨hne2, ?_, ?_⟩
      · have hinner := @exists_key_updAt Event Event.id a
            (fun e => { e with status := EventStatus.SWAP_PENDING }) (fun _ => rfl)
            db.events s.requesterSlotId hex1
        exact @exists_key_updAt Event Event.id b
          (fun e => { e with status := EventStatus.SWAP_PENDING }) (fun _ => rfl)
          _ s.requesterSlotId hinner
      · have hinner := @exists_key_updAt Event Event.id a
            (fun e => { e with status := EventStatus.SWAP_PENDING }) (fun _ => rfl)
            db.events s.requestedSlotId hex2
        exact @exists_key_updAt Event Event.id b
          (fun e => { e with status := EventStatus.SWAP_PENDING }) (fun _ => rfl)
          _ s.requestedSlotId hinner

/-- Unpacking the facts established by a successful guard pass of
`POST /swap-response/:requestId`. -/
lemma respondGuards_ok_inv {db : DB} {uid rid : Nat} {sw : SwapRequest}
    (h : respondGuards db uid rid = .ok sw) :
    findSwap db rid = some sw ∧ sw.requestedId = uid ∧ sw.status = .PENDING := by
  rcases hf : findSwap db rid with _ | s
  · rw [respondGuards_missing hf] at h
    simp at h
  have h2 : s.requestedId = uid := by
    by_contra h2
    rw [respondGuards_notRecipient hf h2] at h
    simp at h
  have h3 : s.status = .PENDING := by
    by_contra h3
    rw [respondGuards_notPending hf h2 h3] at h
    simp at h
  rw [respondGuards_ok hf h2 h3] at h
  have hs : s = sw := by simpa using h
  subst hs
  exact ⟨rfl, h2, h3⟩

/-- Resolving the unique swap request `rid` to a non-PENDING status removes
exactly its contribution from every slot's pending reference count. -/
lemma countP_resolve {db : DB} (hI : Inv db) {rid : Nat} {sw : SwapRequest}
    (hmem : sw ∈ db.swaps) (hid : sw.id = rid) {st : SwapRequestStatus}
    (hst : st ≠ .PENDING) (sid : Nat) :
    (updAt SwapRequest.id rid (fun s => { s with status := st }) db.swaps).countP
        (refsSlot sid) + (if refsSlot sid sw then 1 else 0)
      = List.countP (refsSlot sid) db.swaps := by
  have hmain := @countP_updAt SwapRequest SwapRequest.id rid
    (fun s => { s with status := st }) (refsSlot sid) db.swaps sw hmem hid
    hI.swapsNodup (fun _ => rfl)
  have hzero : refsSlot sid { sw with status := st } = false := by
    unfold refsSlot
    rw [Bool.and_eq_false_iff]
    left
    rw [beq_eq_false_iff_ne]
    exact hst
  rw [hzero] at hmain
  simpa using hmain

/-- Core preservation argument shared by the accept and reject branches of
`POST /swap-response/:requestId`: the swap request moves to a terminal
status and the two referenced slots get id-preserving updates that land
outside SWAP_PENDING. -/
lemma inv_resolve_core {db : DB} (hI : Inv db) {rid : Nat} {sw : SwapRequest}
    (hfind : findSwap db rid = some sw) (hpend : sw.status = .PENDING)
    {st : SwapRequestStatus} (hst : st ≠ .PENDING)
    (g1 g2 : Event → Event)
    (hg1id : ∀ e, (g1 e).id = e.id) (hg2id : ∀ e, (g2 e).id = e.id)
    (hg1st : ∀ e, (g1 e).status ≠ .SWAP_PENDING)
    (hg2st : ∀ e, (g2 e).status ≠ .SWAP_PENDING) :
    Inv { db with
      swaps := updAt SwapRequest.id rid (fun s => { s with status := st }) db.swaps,
      events := updAt Event.id sw.requestedSlotId g2
        (updAt Event.id sw.requesterSlotId g1 db.events) } := by
  obtain ⟨hswMem, hswId⟩ := findSwap_some hfind
  obtain ⟨hneq, hex1, hex2⟩ := hI.pendingWf sw hswMem hpend
  have hcnt := @countP_resolve db hI rid sw hswMem hswId st hst
  have hrA : refsSlot sw.requesterSlotId sw = true :=
    refsSlot_iff.mpr ⟨hpend, Or.inl rfl⟩
  have hrB : refsSlot sw.requestedSlotId sw = true :=
    refsSlot_iff.mpr ⟨hpend, Or.inr rfl⟩
  have hposA : 0 < List.countP (refsSlot sw.requesterSlotId) db.swaps :=
    @pendingRefCount_pos db sw.requesterSlotId sw hswMem hrA
  have hposB : 0 < List.countP (refsSlot sw.requestedSlotId) db.swaps :=
    @pendingRefCount_pos db sw.requestedSlotId sw hswMem hrB
  have hleA : List.countP (refsSlot sw.requesterSlotId) db.swaps ≤ 1 :=
    hI.atMostOne sw.requesterSlotId
  have hleB : List.countP (refsSlot sw.requestedSlotId) db.swaps ≤ 1 :=
    hI.atMostOne sw.requestedSlotId
  have hcA0 : (updAt SwapRequest.id rid (fun s => { s with status := st }) db.swaps).countP
      (refsSlot sw.requesterSlotId) = 0 := by
    have hthis := hcnt sw.requesterSlotId
    rw [hrA] at hthis
    simp at hthis
    omega
  have hcB0 : (updAt SwapRequest.id rid (fun s => { s with status := st }) db.swaps).countP
      (refsSlot sw.requestedSlotId) = 0 := by
    have hthis := hcnt sw.requestedSlotId
    rw [hrB] at hthis
    simp at hthis
    omega
  have hcO : ∀ sid, sid ≠ sw.requesterSlotId → sid ≠ sw.requestedSlotId →
      (updAt SwapRequest.id rid (fun s => { s with status := st }) db.swaps).countP
        (refsSlot sid) = List.countP (refsSlot sid) db.swaps := by
    intro sid hna hnb
    have hz : refsSlot sid sw = false := by
      unfold refsSlot
      rw [Bool.and_eq_false_iff]
      right
      rw [Bool.or_eq_false_iff, beq_eq_false_iff_ne, beq_eq_false_iff_ne]
      exact ⟨Ne.symm hna, Ne.symm hnb⟩
    have hthis := hcnt sid
    rw [hz] at hthis
    simpa using hthis
  constructor
  · rw [@updAt_map_key Event Event.id sw.requestedSlotId g2 hg2id,
      @updAt_map_key Event Event.id sw.requesterSlotId g1 hg1id]
    exact hI.eventsNodup
  · rw [@updAt_map_key SwapRequest SwapRequest.id rid
      (fun s => { s with status := st }) (fun _ => rfl)]
    exact hI.swapsNodup
  · intro e' he'
    obtain ⟨e, he, hcase⟩ := double_updAt_cases hneq g1 g2 hg1id he'
    have hlt := hI.eventsBelow e he
    rcases hcase with ⟨hea, rfl⟩ | ⟨heb, rfl⟩ | ⟨hna, hnb, rfl⟩
    · rw [hg1id]
      exact hlt
    · rw [hg2id]
      exact hlt
    · exact hlt
  · intro s' hs'
    rw [mem_updAt] at hs'
    obtain ⟨s, hs, rfl⟩ := hs'
    have hlt := hI.swapsBelow s hs
    split <;> exact hlt
  · intro sid
    by_cases hna : sid = sw.requesterSlotId
    · rw [hna]
      show (updAt SwapRequest.id rid (fun s => { s with status := st }) db.swaps).countP
        (refsSlot sw.requesterSlotId) ≤ 1
      omega
    by_cases hnb : sid = sw.requestedSlotId
    · rw [hnb]
      show (updAt SwapRequest.id rid (fun s => { s with status := st }) db.swaps).countP
        (refsSlot sw.requestedSlotId) ≤ 1
      omega
    show (updAt SwapRequest.id rid (fun s => { s with status := st }) db.swaps).countP
      (refsSlot sid) ≤ 1
    rw [hcO sid hna hnb]
    exact hI.atMostOne sid
  · intro e' he'
    obtain ⟨e, he, hcase⟩ := double_updAt_cases hneq g1 g2 hg1id he'
    rcases hcase with ⟨hea, rfl⟩ | ⟨heb, rfl⟩ | ⟨hna, hnb, rfl⟩
    · constructor
      · intro hcontra
        exact absurd hcontra (hg1st e)
      · intro hcount
        have hidEq : (g1 e).id = sw.requesterSlotId := by rw [hg1id, hea]
        rw [hidEq] at hcount
        have : (updAt SwapRequest.id rid (fun s => { s with status := st }) db.swaps).countP
          (refsSlot sw.requesterSlotId) = 1 := hcount
        omega
    · constructor
      · intro hcontra
        exact absurd hcontra (hg2st e)
      · intro hcount
        have hidEq : (g2 e).id = sw.requestedSlotId := by rw [hg2id, heb]
        rw [hidEq] at hcount
        have : (updAt SwapRequest.id rid (fun s => { s with status := st }) db.swaps).countP
          (refsSlot sw.requestedSlotId) = 1 := hcount
        omega
    · have hpair := hI.pairing e' he
      show e'.status = EventStatus.SWAP_PENDING ↔
        (updAt SwapRequest.id rid (fun s => { s with status := st }) db.swaps).countP
          (refsSlot e'.id) = 1
      rw [hcO e'.id hna hnb]
      exact hpair
  · intro s' hs' hs'Pend
    rw [mem_updAt] at hs'
    obtain ⟨s, hs, rfl⟩ := hs'
    by_cases hsid : s.id = rid
    · exfalso
      rw [if_pos (by simp [hsid])] at hs'Pend
      have : st = SwapRequestStatus.PENDING := hs'Pend
      exact hst this
    · rw [if_neg (by simp [hsid])] at hs'Pend ⊢
      obtain ⟨hne2, hex1', hex2'⟩ := hI.pendingWf s hs hs'Pend
      refine ⟨hne2, ?_, ?_⟩
      · have hinner := @exists_key_updAt Event Event.id sw.requesterSlotId g1 hg1id
          db.events s.requesterSlotId hex1'
        exact @exists_key_updAt Event Event.id sw.requestedSlotId g2 hg2id
          _ s.requesterSlotId hinner
      · have hinner := @exists_key_updAt Event Event.id sw.requesterSlotId g1 hg1id
          db.events s.requestedSlotId hex2'
        exact @exists_key_updAt Event Event.id sw.requestedSlotId g2 hg2id
          _ s.requestedSlotId hinner

lemma inv_respondSwapRequest {db : DB} {uid rid : Nat} {acc : Bool} (hI : Inv db) :
    Inv (respondSwapRequest db uid rid acc).1 := by
  unfold respondSwapRequest
  rcases hg : respondGuards db uid rid with r | sw
  · rw [respondSwapRequestF_err hg]
    exact hI
  obtain ⟨hfind, hrec, hpend⟩ := respondGuards_ok_inv hg
  cases acc with
  | true =>
    rcases hrq : findEvent db sw.requesterSlotId with _ | rq
    · rw [respondSwapRequestF_acceptMissing hg (Or.inl hrq)]
      exact hI
    rcases hrd : findEvent db sw.requestedSlotId with _ | rd
    · rw [respondSwapRequestF_acceptMissing hg (Or.inr hrd)]
      exact hI
    rw [respondSwapRequestF_accept hg hrq hrd]
    exact inv_resolve_core hI hfind hpend (by decide)
      (fun e => { e with userId := rd.userId, status := .BUSY })
      (fun e => { e with userId := rq.userId, status := .BUSY })
      (fun _ => rfl) (fun _ => rfl) (fun _ => by simp) (fun _ => by simp)
  | false =>
    rw [respondSwapRequestF_reject hg]
    exact inv_resolve_core hI hfind hpend (by decide)
      (fun e => { e with status := .SWAPPABLE })
      (fun e => { e with status := .SWAPPABLE })
      (fun _ => rfl) (fun _ => rfl) (fun _ => by simp) (fun _ => by simp)

lemma inv_goodStep {db db' : DB} (hI : Inv db) (h : GoodStep db db') : Inv db' := by
  cases h with
  | cEvent uid inp hne => exact inv_createEvent hI hne
  | uEvent uid i inp hne => exact inv_updateEvent hI hne
  | dEvent uid i => exact inv_deleteEvent hI
  | cSwap uid a b => exact inv_createSwapRequest hI
  | rSwap uid rid acc => exact inv_respondSwapRequest hI

lemma inv_goodReachable {db : DB} (h : GoodReachable db) : Inv db := by
  unfold GoodReachable at h
  induction h with
  | refl => exact inv_init
  | tail hsteps hstep ih => exact inv_goodStep ih hstep

/-- C1, counterexample: the state reached from a fresh store by one call of
the event-create endpoint with explicit body status `SWAP_PENDING` is
reachable through the exposed operations, yet violates the pairing
invariant — it holds a SWAP_PENDING slot referenced by no PENDING swap
request at all. -/
theorem c1_counterexample :
    Reachable (createEvent DB.init 1 ⟨titleA, 0, 60, some .SWAP_PENDING⟩).1 ∧
    ¬ Pairing (createEvent DB.init 1 ⟨titleA, 0, 60, some .SWAP_PENDING⟩).1 := by
  constructor
  · exact Relation.ReflTransGen.single
      (Step.cEvent DB.init 1 ⟨titleA, 0, 60, some .SWAP_PENDING⟩)
  · unfold Pairing
    decide

/-- C1, amended: in every state reachable through the exposed operations in
which event create/update are never invoked with the explicit status
`SWAP_PENDING`, a slot has status SWAP_PENDING iff exactly one PENDING
swap request references it as requesterSlotId or requestedSlotId. -/
theorem c1_pairing_invariant {db : DB} (h : GoodReachable db) : Pairing db :=
  (inv_goodReachable h).pairing

/-- C1, witness: the pairing invariant holds at the concrete state reached by
creating two swappable slots and one proposal over them. -/
theorem c1_pairing_invariant_witness : GoodReachable dbPend ∧ Pairing dbPend :=
  have h : GoodReachable dbPend :=
    Relation.ReflTransGen.tail
      (Relation.ReflTransGen.tail
        (Relation.ReflTransGen.single (GoodStep.cEvent DB.init 1 inpA (by decide)))
        (GoodStep.cEvent dbOne 2 inpB (by decide)))
      (GoodStep.cSwap dbTwo 1 0 1)
  ⟨h, c1_pairing_invariant h⟩

/-- C4, counterexample: with the store write that marks the offered slot
SWAP_PENDING failing (failure point 1, after `SwapRequest.create`
succeeded), the caller receives the generic 500 error, yet a new PENDING
proposal record is observable in the store while both slots still carry
their old SWAPPABLE status — partial state, because the route wraps no
transaction around its three writes. -/
theorem c4_counterexample :
    (createSwapRequestF (some 1) dbTwo 1 0 1).2 = .internalError ∧
    dbTwo.swaps = [] ∧
    (createSwapRequestF (some 1) dbTwo 1 0 1).1.swaps = [⟨0, 1, 2, 0, 1, .PENDING⟩] ∧
    findEvent (createSwapRequestF (some 1) dbTwo 1 0 1).1 0 =
      some ⟨0, 1, titleA, 0, 60, .SWAPPABLE⟩ ∧
    findEvent (createSwapRequestF (some 1) dbTwo 1 0 1).1 1 =
      some ⟨1, 2, titleB, 100, 160, .SWAPPABLE⟩ := by
  refine ⟨rfl, rfl, rfl, rfl, rfl⟩

/-- C4, amended: `POST /swap-request` performs its three writes sequentially
with no transaction.  If the proposal-record write itself fails, the caller
gets the generic error and no state changed; but if a slot update fails
after the proposal write, the proposal record stays committed (and, for a
failure on the second slot update, the offered slot stays marked
SWAP_PENDING), so the error response coexists with observable partial
state. -/
theorem c4_partial_state_on_failure {db : DB} {uid a b : Nat} {my their : Event}
    (hg : swapGuards db uid a b = .ok (my, their)) :
    createSwapRequestF (some 0) db uid a b = (db, .internalError) ∧
    createSwapRequestF (some 1) db uid a b =
      ({ db with
          swaps := ⟨db.nextSwapId, uid, their.userId, a, b, .PENDING⟩ :: db.swaps,
          nextSwapId := db.nextSwapId + 1 }, .internalError) ∧
    createSwapRequestF (some 2) db uid a b =
      ({ db with
          events := updAt Event.id a (fun e => { e with status := .SWAP_PENDING }) db.events,
          swaps := ⟨db.nextSwapId, uid, their.userId, a, b, .PENDING⟩ :: db.swaps,
          nextSwapId := db.nextSwapId + 1 }, .internalError) :=
  ⟨createSwapRequestF_fail0 hg, createSwapRequestF_fail1 hg, createSwapRequestF_fail2 hg⟩

/-- C4, witness: the failure-point characterization applied to the concrete
two-user store. -/
theorem c4_partial_state_on_failure_witness :
    swapGuards dbTwo 1 0 1 =
      .ok (⟨0, 1, titleA, 0, 60, .SWAPPABLE⟩, ⟨1, 2, titleB, 100, 160, .SWAPPABLE⟩) ∧
    createSwapRequestF (some 0) dbTwo 1 0 1 = (dbTwo, .internalError) := by
  have hg : swapGuards dbTwo 1 0 1 =
      .ok (⟨0, 1, titleA, 0, 60, .SWAPPABLE⟩, ⟨1, 2, titleB, 100, 160, .SWAPPABLE⟩) := rfl
  exact ⟨hg, (c4_partial_state_on_failure hg).1⟩

/-- C6, counterexample: user 3 offers slot 0, which exists but belongs to
user 1.  The route answers exactly the 404 `Your slot not found` response —
the same response produced when the offered slot id does not exist at
all — not a distinct ownership-mismatch error. -/
theorem c6_counterexample :
    createSwapRequest dbTwo 3 0 1 = (dbTwo, .yourSlotNotFound) ∧
    createSwapRequest dbTwo 3 99 1 = (dbTwo, .yourSlotNotFound) := by
  refine ⟨rfl, rfl⟩

/-- C6, amended: when the offered slot id resolves to an existing slot whose
owner is not the proposer (and the requested slot id resolves), the call
fails with the same 404 `Your slot not found` error used for a nonexistent
offered slot — ownership mismatch is not distinguishable from
non-existence — and no state is mutated. -/
theorem c6_ownership_mismatch {db : DB} {uid a b : Nat} {fa : Option Nat} {myE : Event}
    (hmem : myE ∈ db.events) (hid : myE.id = a)
    (hown : ∀ e ∈ db.events, e.id = a → e.userId ≠ uid)
    (hb : (findEvent db b).isSome) :
    createSwapRequestF fa db uid a b = (db, .yourSlotNotFound) := by
  obtain ⟨their, htheir⟩ := Option.isSome_iff_exists.mp hb
  have hnone : findEventOwned db a uid = none := by
    unfold findEventOwned
    rw [List.find?_eq_none]
    intro e he hcontra
    simp only [Bool.and_eq_true, beq_iff_eq] at hcontra
    exact hown e he hcontra.1 hcontra.2
  exact createSwapRequestF_err (swapGuards_mineMissing htheir hnone)

/-- C6, witness: the amended statement applied to user 3 offering user 1's
slot 0 in the concrete two-user store. -/
theorem c6_ownership_mismatch_witness :
    createSwapRequestF none dbTwo 3 0 1 = (dbTwo, .yourSlotNotFound) :=
  @c6_ownership_mismatch dbTwo 3 0 1 none ⟨0, 1, titleA, 0, 60, .SWAPPABLE⟩
    (by decide) (by decide) (by decide) (by decide)

/-- C7, counterexample: user 1 names their own BUSY slot 0 as both offered
and requested slot.  The claim requires the self-swap error regardless of
exchange states, but the route checks swappability first and answers
`Your slot must be marked as swappable`. -/
theorem c7_counterexample :
    createSwapRequest dbBusy 1 0 0 = (dbBusy, .notSwappableMine) ∧
    Resp.notSwappableMine ≠ Resp.selfSwap := by
  refine ⟨rfl, by decide⟩

/-- C7, amended: the actual check order of `POST /swap-request` is: requested
slot exists, offered slot exists and is owned by the caller (one combined
lookup), offered slot SWAPPABLE, requested slot SWAPPABLE, and only then
the self-swap check; each failing check returns its error with no state
change, so the self-swap error is reached only when both slots are
SWAPPABLE. -/
theorem c7_check_order {db : DB} {uid a b : Nat} {fa : Option Nat} :
    (findEvent db b = none →
      createSwapRequestF fa db uid a b = (db, .requestedSlotNotFound)) ∧
    (∀ their, findEvent db b = some their → findEventOwned db a uid = none →
      createSwapRequestF fa db uid a b = (db, .yourSlotNotFound)) ∧
    (∀ their my, findEvent db b = some their → findEventOwned db a uid = some my →
      my.status ≠ .SWAPPABLE →
      createSwapRequestF fa db uid a b = (db, .notSwappableMine)) ∧
    (∀ their my, findEvent db b = some their → findEventOwned db a uid = some my →
      my.status = .SWAPPABLE → their.status ≠ .SWAPPABLE →
      createSwapRequestF fa db uid a b = (db, .notSwappableTheirs)) ∧
    (∀ their my, findEvent db b = some their → findEventOwned db a uid = some my →
      my.status = .SWAPPABLE → their.status = .SWAPPABLE → my.userId = their.userId →
      createSwapRequestF fa db uid a b = (db, .selfSwap)) := by
  refine ⟨?_, ?_, ?_, ?_, ?_⟩
  · intro h
    exact createSwapRequestF_err (swapGuards_requestedMissing h)
  · intro their h h2
    exact createSwapRequestF_err (swapGuards_mineMissing h h2)
  · intro their my h h2 h3
    exact createSwapRequestF_err (swapGuards_mineNotSwappable h h2 h3)
  · intro their my h h2 h3 h4
    exact createSwapRequestF_err (swapGuards_theirsNotSwappable h h2 h3 h4)
  · intro their my h h2 h3 h4 h5
    exact createSwapRequestF_err (swapGuards_selfSwap h h2 h3 h4 h5)

/-- C7, witness: the check-order theorem applied to the self-swap case where
user 1 names their own SWAPPABLE slot twice, and to the swappability case
of the BUSY store. -/
theorem c7_check_order_witness :
    createSwapRequestF none dbSelf 1 0 0 = (dbSelf, .selfSwap) ∧
    createSwapRequestF none dbBusy 1 0 0 = (dbBusy, .notSwappableMine) := by
  constructor
  · exact c7_check_order.2.2.2.2 ⟨0, 1, titleA, 0, 60, .SWAPPABLE⟩
      ⟨0, 1, titleA, 0, 60, .SWAPPABLE⟩ rfl rfl rfl rfl rfl
  · exact c7_check_order.2.2.1 ⟨0, 1, titleA, 0, 60, .BUSY⟩
      ⟨0, 1, titleA, 0, 60, .BUSY⟩ rfl rfl (by decide)

/-- C2: when the recorded recipient accepts a PENDING proposal whose two
referenced slots exist, are distinct, and are still owned by the proposer
and the recipient respectively, the route reports success, the proposal
becomes ACCEPTED, the offered slot's owner becomes the recipient with
status BUSY, the requested slot's owner becomes the proposer with status
BUSY, and each slot's title, startTime and endTime are unchanged (the
record updates touch only userId and status). -/
theorem c2_accept_postcondition {db : DB} {uid rid : Nat} {sw : SwapRequest}
    {rq rd : Event}
    (hfind : findSwap db rid = some sw) (hrec : sw.requestedId = uid)
    (hpend : sw.status = .PENDING)
    (hrq : findEvent db sw.requesterSlotId = some rq)
    (hrd : findEvent db sw.requestedSlotId = some rd)
    (hAB : sw.requesterSlotId ≠ sw.requestedSlotId)
    (hrqOwn : rq.userId = sw.requesterId) (hrdOwn : rd.userId = sw.requestedId) :
    (respondSwapRequest db uid rid true).2 = .swapAccepted ∧
    findSwap (respondSwapRequest db uid rid true).1 rid =
      some { sw with status := .ACCEPTED } ∧
    findEvent (respondSwapRequest db uid rid true).1 sw.requesterSlotId =
      some { rq with userId := uid, status := .BUSY } ∧
    findEvent (respondSwapRequest db uid rid true).1 sw.requestedSlotId =
      some { rd with userId := sw.requesterId, status := .BUSY } := by
  have hg : respondGuards db uid rid = .ok sw := respondGuards_ok hfind hrec hpend
  unfold respondSwapRequest
  rw [respondSwapRequestF_accept hg hrq hrd]
  refine ⟨rfl, ?_, ?_, ?_⟩
  · show (updAt SwapRequest.id rid (fun s => { s with status := .ACCEPTED })
        db.swaps).find? (fun s => s.id == rid) = some { sw with status := .ACCEPTED }
    rw [@find?_updAt_self SwapRequest SwapRequest.id rid
      (fun s => { s with status := .ACCEPTED }) (fun _ => rfl) db.swaps]
    unfold findSwap at hfind
    rw [hfind]
    rfl
  · show (updAt Event.id sw.requestedSlotId
        (fun e => { e with userId := rq.userId, status := .BUSY })
        (updAt Event.id sw.requesterSlotId
          (fun e => { e with userId := rd.userId, status := .BUSY })
          db.events)).find? (fun e => e.id == sw.requesterSlotId) =
      some { rq with userId := uid, status := .BUSY }
    rw [@find?_updAt_ne Event Event.id sw.requestedSlotId
      (fun e => { e with userId := rq.userId, status := .BUSY }) (fun _ => rfl)
      sw.requesterSlotId hAB _]
    rw [@find?_updAt_self Event Event.id sw.requesterSlotId
      (fun e => { e with userId := rd.userId, status := .BUSY }) (fun _ => rfl)
      db.events]
    unfold findEvent at hrq
    rw [hrq]
    simp [hrdOwn, hrec]
  · show (updAt Event.id sw.requestedSlotId
        (fun e => { e with userId := rq.userId, status := .BUSY })
        (updAt Event.id sw.requesterSlotId
          (fun e => { e with userId := rd.userId, status := .BUSY })
          db.events)).find? (fun e => e.id == sw.requestedSlotId) =
      some { rd with userId := sw.requesterId, status := .BUSY }
    rw [@find?_updAt_self Event Event.id sw.requestedSlotId
      (fun e => { e with userId := rq.userId, status := .BUSY }) (fun _ => rfl) _]
    rw [@find?_updAt_ne Event Event.id sw.requesterSlotId
      (fun e => { e with userId := rd.userId, status := .BUSY }) (fun _ => rfl)
      sw.requestedSlotId (Ne.symm hAB) db.events]
    unfold findEvent at hrd
    rw [hrd]
    simp [hrqOwn]

/-- C2, witness: the accept postcondition evaluated on the concrete pending
proposal between users 1 and 2. -/
theorem c2_accept_postcondition_witness :
    (respondSwapRequest dbPend 2 0 true).2 = .swapAccepted ∧
    findEvent (respondSwapRequest dbPend 2 0 true).1 0 =
      some ⟨0, 2, titleA, 0, 60, .BUSY⟩ ∧
    findEvent (respondSwapRequest dbPend 2 0 true).1 1 =
      some ⟨1, 1, titleB, 100, 160, .BUSY⟩ := by
  have h := @c2_accept_postcondition dbPend 2 0 ⟨0, 1, 2, 0, 1, .PENDING⟩
    ⟨0, 1, titleA, 0, 60, .SWAP_PENDING⟩ ⟨1, 2, titleB, 100, 160, .SWAP_PENDING⟩
    rfl rfl rfl rfl rfl (by decide) rfl rfl
  exact ⟨h.1, h.2.2.1, h.2.2.2⟩

/-- C3: when the recorded recipient rejects a PENDING proposal whose two
referenced slots exist and are distinct, the route reports success, the
proposal becomes REJECTED, and both slots return to status SWAPPABLE with
every other field — in particular userId, title, startTime, endTime —
unchanged (the record updates touch only status). -/
theorem c3_reject_postcondition {db : DB} {uid rid : Nat} {sw : SwapRequest}
    {rq rd : Event}
    (hfind : findSwap db rid = some sw) (hrec : sw.requestedId = uid)
    (hpend : sw.status = .PENDING)
    (hrq : findEvent db sw.requesterSlotId = some rq)
    (hrd : findEvent db sw.requestedSlotId = some rd)
    (hAB : sw.requesterSlotId ≠ sw.requestedSlotId) :
    (respondSwapRequest db uid rid false).2 = .swapRejected ∧
    findSwap (respondSwapRequest db uid rid false).1 rid =
      some { sw with status := .REJECTED } ∧
    findEvent (respondSwapRequest db uid rid false).1 sw.requesterSlotId =
      some { rq with status := .SWAPPABLE } ∧
    findEvent (respondSwapRequest db uid rid false).1 sw.requestedSlotId =
      some { rd with status := .SWAPPABLE } := by
  have hg : respondGuards db uid rid = .ok sw := respondGuards_ok hfind hrec hpend
  unfold respondSwapRequest
  rw [respondSwapRequestF_reject hg]
  refine ⟨rfl, ?_, ?_, ?_⟩
  · show (updAt SwapRequest.id rid (fun s => { s with status := .REJECTED })
        db.swaps).find? (fun s => s.id == rid) = some { sw with status := .REJECTED }
    rw [@find?_updAt_self SwapRequest SwapRequest.id rid
      (fun s => { s with status := .REJECTED }) (fun _ => rfl) db.swaps]
    unfold findSwap at hfind
    rw [hfind]
    rfl
  · show (updAt Event.id sw.requestedSlotId
        (fun e => { e with status := .SWAPPABLE })
        (updAt Event.id sw.requesterSlotId
          (fun e => { e with status := .SWAPPABLE })
          db.events)).find? (fun e => e.id == sw.requesterSlotId) =
      some { rq with status := .SWAPPABLE }
    rw [@find?_updAt_ne Event Event.id sw.requestedSlotId
      (fun e => { e with status := .SWAPPABLE }) (fun _ => rfl)
      sw.requesterSlotId hAB _]
    rw [@find?_updAt_self Event Event.id sw.requesterSlotId
      (fun e => { e with status := .SWAPPABLE }) (fun _ => rfl) db.events]
    unfold findEvent at hrq
    rw [hrq]
    rfl
  · show (updAt Event.id sw.requestedSlotId
        (fun e => { e with status := .SWAPPABLE })
        (updAt Event.id sw.requesterSlotId
          (fun e => { e with status := .SWAPPABLE })
          db.events)).find? (fun e => e.id == sw.requestedSlotId) =
      some { rd with status := .SWAPPABLE }
    rw [@find?_updAt_self Event Event.id sw.requestedSlotId
      (fun e => { e with status := .SWAPPABLE }) (fun _ => rfl) _]
    rw [@find?_updAt_ne Event Event.id sw.requesterSlotId
      (fun e => { e with status := .SWAPPABLE }) (fun _ => rfl)
      sw.requestedSlotId (Ne.symm hAB) db.events]
    unfold findEvent at hrd
    rw [hrd]
    rfl

/-- C3, witness: the reject postcondition evaluated on the concrete pending
proposal between users 1 and 2. -/
theorem c3_reject_postcondition_witness :
    (respondSwapRequest dbPend 2 0 false).2 = .swapRejected ∧
    findEvent (respondSwapRequest dbPend 2 0 false).1 0 =
      some ⟨0, 1, titleA, 0, 60, .SWAPPABLE⟩ ∧
    findEvent (respondSwapRequest dbPend 2 0 false).1 1 =
      some ⟨1, 2, titleB, 100, 160, .SWAPPABLE⟩ := by
  have h := @c3_reject_postcondition dbPend 2 0 ⟨0, 1, 2, 0, 1, .PENDING⟩
    ⟨0, 1, titleA, 0, 60, .SWAP_PENDING⟩ ⟨1, 2, titleB, 100, 160, .SWAP_PENDING⟩
    rfl rfl rfl rfl rfl (by decide)
  exact ⟨h.1, h.2.2.1, h.2.2.2⟩

/-- C5: for an existing proposal, a resolution attempt by anyone other than
the recorded recipient answers the 403 unauthorized error, and a resolution
attempt by the recipient on a non-PENDING (already accepted or rejected)
proposal answers the 400 already-processed error; in both cases the store
is returned unchanged, for either decision value and any failure point, so
repeating the call fails identically without further state change. -/
theorem c5_resolution_guards {db : DB} {uid rid : Nat} {sw : SwapRequest}
    {fa : Option Nat} {acc : Bool}
    (hfind : findSwap db rid = some sw) :
    (sw.requestedId ≠ uid →
      respondSwapRequestF fa db uid rid acc = (db, .notAuthorized)) ∧
    (sw.requestedId = uid → sw.status ≠ .PENDING →
      respondSwapRequestF fa db uid rid acc = (db, .alreadyProcessed)) :=
  ⟨fun h2 => respondSwapRequestF_err (respondGuards_notRecipient hfind h2),
   fun h2 h3 => respondSwapRequestF_err (respondGuards_notPending hfind h2 h3)⟩

/-- C5, witness: on the concrete store where the proposal is already
ACCEPTED, a second accept attempt by the recipient fails as already
processed, and an attempt by user 1 (the proposer) fails as unauthorized,
both leaving the store unchanged. -/
theorem c5_resolution_guards_witness :
    respondSwapRequestF none dbAcc 2 0 true = (dbAcc, .alreadyProcessed) ∧
    respondSwapRequestF none dbAcc 1 0 true = (dbAcc, .notAuthorized) := by
  have hfind : findSwap dbAcc 0 = some ⟨0, 1, 2, 0, 1, .ACCEPTED⟩ := rfl
  exact ⟨(c5_resolution_guards hfind).2 rfl (by decide),
    (c5_resolution_guards hfind).1 (by decide)⟩

/-- C8, counterexample: slot 0 is SWAP_PENDING and referenced by a PENDING
swap request, yet a title-only edit through the update endpoint succeeds
and changes the stored slot — contradicting the claim that every direct
edit of such a slot is refused. -/
theorem c8_counterexample :
    hasPendingSwapFor dbPend 0 = true ∧
    (updateEvent dbPend 1 0 ⟨some titleB, none, none, none⟩).2 =
      .eventOk ⟨0, 1, titleB, 0, 60, .SWAP_PENDING⟩ ∧
    findEvent (updateEvent dbPend 1 0 ⟨some titleB, none, none, none⟩).1 0 =
      some ⟨0, 1, titleB, 0, 60, .SWAP_PENDING⟩ := by
  refine ⟨rfl, rfl, rfl⟩

/-- C8, amended: while a slot is referenced by a PENDING swap request, the
update endpoint refuses only a change of `status` (and the delete endpoint
refuses deletion), both leaving the store unchanged; an update that carries
no status change — e.g. a title, startTime or endTime edit — goes through
and mutates the slot. -/
theorem c8_pending_guard {db : DB} {uid i : Nat} {ex : Event}
    (hfound : findEventOwned db i uid = some ex)
    (hpend : hasPendingSwapFor db i = true) :
    (∀ inp : UpdateEventInput, emptyTitle inp.title = false →
      statusChanged inp.status ex = true →
      updateEvent db uid i inp = (db, .pendingStatusGuard)) ∧
    deleteEvent db uid i = (db, .pendingDeleteGuard) ∧
    (∀ inp : UpdateEventInput, emptyTitle inp.title = false → inp.status = none →
      badTimes inp = false →
      updateEvent db uid i inp =
        ({ db with events := updAt Event.id i (applyUpdate inp) db.events },
          .eventOk (applyUpdate inp ex))) := by
  refine ⟨?_, deleteEvent_pendingGuard hfound hpend, ?_⟩
  · intro inp h1 h2
    exact updateEvent_pendingGuard h1 hfound (by rw [h2, hpend]; rfl)
  · intro inp h1 h2 h3
    refine updateEvent_success h1 hfound ?_ h3
    unfold statusChanged
    rw [h2]
    rfl

/-- C8, witness: on the concrete pending store, a status change to BUSY is
refused and deletion is refused, both leaving the store unchanged. -/
theorem c8_pending_guard_witness :
    updateEvent dbPend 1 0 ⟨none, none, none, some .BUSY⟩ =
      (dbPend, .pendingStatusGuard) ∧
    deleteEvent dbPend 1 0 = (dbPend, .pendingDeleteGuard) := by
  have h := @c8_pending_guard dbPend 1 0 ⟨0, 1, titleA, 0, 60, .SWAP_PENDING⟩ rfl rfl
  exact ⟨h.1 ⟨none, none, none, some .BUSY⟩ rfl (by decide), h.2.1⟩

/-- C9, counterexample: successful resolution answers only the fixed
acknowledgement bodies `{message: 'Swap accepted successfully'}` and
`{message: 'Swap rejected'}` — responses that carry no proposal record —
contradicting the claim that the updated Proposal is returned. -/
theorem c9_counterexample :
    (respondSwapRequest dbPend 2 0 true).2 = .swapAccepted ∧
    (respondSwapRequest dbPend 2 0 false).2 = .swapRejected ∧
    Resp.swapAccepted ≠ .swapCreated ⟨0, 1, 2, 0, 1, .ACCEPTED⟩ := by
  refine ⟨rfl, rfl, by decide⟩

/-- C9, amended: every successful resolution call returns a bare
acknowledgement message — `swapAccepted` for accept (given both referenced
slots resolve) and `swapRejected` for reject — and never the updated
proposal record. -/
theorem c9_ack_only {db : DB} {uid rid : Nat} {sw : SwapRequest} {rq rd : Event}
    (hg : respondGuards db uid rid = .ok sw)
    (hrq : findEvent db sw.requesterSlotId = some rq)
    (hrd : findEvent db sw.requestedSlotId = some rd) :
    (respondSwapRequest db uid rid true).2 = .swapAccepted ∧
    (respondSwapRequest db uid rid false).2 = .swapRejected := by
  unfold respondSwapRequest
  rw [respondSwapRequestF_accept hg hrq hrd, respondSwapRequestF_reject hg]
  exact ⟨rfl, rfl⟩

/-- C9, witness: the acknowledgement-only responses on the concrete pending
proposal. -/
theorem c9_ack_only_witness :
    (respondSwapRequest dbPend 2 0 true).2 = .swapAccepted ∧
    (respondSwapRequest dbPend 2 0 false).2 = .swapRejected :=
  @c9_ack_only dbPend 2 0 ⟨0, 1, 2, 0, 1, .PENDING⟩
    ⟨0, 1, titleA, 0, 60, .SWAP_PENDING⟩ ⟨1, 2, titleB, 100, 160, .SWAP_PENDING⟩
    rfl rfl rfl

/-- C10, counterexample: slot 0 is stored with startTime 0 and endTime 60; an
update providing only startTime := 200 succeeds, and the stored slot now
has endTime 60 ≤ startTime 200 — the update endpoint skipped the time
validation because only one time field was supplied. -/
theorem c10_counterexample :
    (updateEvent dbTwo 1 0 ⟨none, some 200, none, none⟩).2 =
      .eventOk ⟨0, 1, titleA, 200, 60, .SWAPPABLE⟩ ∧
    findEvent (updateEvent dbTwo 1 0 ⟨none, some 200, none, none⟩).1 0 =
      some ⟨0, 1, titleA, 200, 60, .SWAPPABLE⟩ ∧
    (60 : Int) ≤ 200 := by
  refine ⟨rfl, rfl, by decide⟩

/-- C10, amended: the create endpoint always rejects endTime ≤ startTime,
and the update endpoint rejects it only when both startTime and endTime are
supplied in the same request; an update supplying a single time field is
not validated against the stored other bound (as the counterexample
shows). -/
theorem c10_time_validation {db : DB} {uid : Nat} :
    (∀ inp : CreateEventInput, inp.title.isEmpty = false →
      inp.endTime ≤ inp.startTime →
      createEvent db uid inp = (db, .badTimeRange)) ∧
    (∀ (i : Nat) (inp : UpdateEventInput) (ex : Event) (s t : Int),
      emptyTitle inp.title = false → findEventOwned db i uid = some ex →
      (statusChanged inp.status ex && hasPendingSwapFor db i) = false →
      inp.startTime = some s → inp.endTime = some t → t ≤ s →
      updateEvent db uid i inp = (db, .badTimeRange)) := by
  constructor
  · intro inp h1 h2
    exact createEvent_badTime h1 h2
  · intro i inp ex s t h1 h2 h3 hs ht hle
    refine updateEvent_badTime h1 h2 h3 ?_
    unfold badTimes
    rw [hs, ht]
    simpa using hle

/-- C10, witness: both validations fired on concrete inputs — a create with
end before start, and an update supplying both times in the wrong order. -/
theorem c10_time_validation_witness :
    createEvent dbTwo 1 ⟨titleA, 50, 10, none⟩ = (dbTwo, .badTimeRange) ∧
    updateEvent dbTwo 1 0 ⟨none, some 90, some 70, none⟩ = (dbTwo, .badTimeRange) := by
  constructor
  · exact c10_time_validation.1 ⟨titleA, 50, 10, none⟩ rfl (by decide)
  · exact c10_time_validation.2 0 ⟨none, some 90, some 70, none⟩
      ⟨0, 1, titleA, 0, 60, .SWAPPABLE⟩ 90 70 rfl rfl rfl rfl rfl (by decide)

end SlotSwapper
